import Mathlib

/-!
Verification development for the MagicPaste pipeline (Python sources under
`src/magic_paste/`). The Python code is shallowly embedded: pure logic is
translated to Lean functions; effectful collaborators (clipboard OS probes,
the OpenAI network transport, `json.loads`, `uuid.uuid4`) are modelled as
explicit inputs to the embedded functions. Python truthiness of optional
strings and byte payloads is modelled explicitly.
-/

namespace MagicPaste

/-! ## Small dictionary helpers (Python `dict` as association lists)

A Python `dict` is modelled as an association list; `dset` updates in place
(keeping position, as CPython does) or appends a fresh key, `dpop` removes a
key, `lookupLast` gives last-write-wins lookup for dictionaries built by
repeated assignment. -/

def dget {α : Type} (l : List (String × α)) (k : String) : Option α :=
  (l.find? (fun p => p.1 == k)).map (·.2)

def dset {α : Type} (l : List (String × α)) (k : String) (v : α) :
    List (String × α) :=
  if (l.find? (fun p => p.1 == k)).isSome then
    l.map (fun p => if p.1 == k then (k, v) else p)
  else l ++ [(k, v)]

def dpop {α : Type} (l : List (String × α)) (k : String) : List (String × α) :=
  l.filter (fun p => !(p.1 == k))

def lookupLast {α : Type} (l : List (String × α)) (k : String) : Option α :=
  ((l.filter (fun p => p.1 == k)).getLast?).map (·.2)

/-- Python truthiness of an `Optional[str]`: `None` and `""` are falsy. -/
def pyTruthyStr (o : Option String) : Bool := o.getD "" ≠ ""

/-- Python truthiness of an `Optional[bytes]`: `None` and `b""` are falsy. -/
def pyTruthyBytes (o : Option (List Nat)) : Bool := o.getD [] ≠ []

/-- Python `str.strip()` restricted to whitespace characters. -/
def pyStrip (s : String) : String :=
  ⟨((s.toList.dropWhile Char.isWhitespace).reverse.dropWhile
      Char.isWhitespace).reverse⟩

/-- Python `str.lower()` (ASCII model). -/
def pyLower (s : String) : String := ⟨s.toList.map Char.toLower⟩

/-! ## i18n (`src/magic_paste/i18n.py`)

Only the `en-US` table entries used by the embedded code paths are needed;
`t` is the lookup with key fallback, as in `i18n.t`. -/

def translations : List (String × String) :=
  [("manual.title", "Paste as-is"),
   ("manual.desc", "Keep the original clipboard content without changes."),
   ("manual.image_output", "[Clipboard image preserved as-is]"),
   ("errors.clipboard_empty", "No available text or image content in clipboard.")]

def t (key : String) : String := (dget translations key).getD key

/-! ## Data types (`src/magic_paste/pipeline/types.py`) -/

structure IntentCandidate where
  title : String
  description : String
  confidence : String
deriving DecidableEq, Repr

structure IntentResult where
  title : String
  description : String
  confidence : String
  output : String
  error : Option String
  candidate_id : Option String
deriving DecidableEq, Repr

/-! ## Clipboard (`src/magic_paste/clipboard/reader.py`) -/

structure ClipboardData where
  text : Option String
  image_data : Option (List Nat)
  image_mime : String
  original_has_image : Bool
deriving DecidableEq, Repr

/-- `ClipboardData.has_text`: `bool(self.text)`. -/
def ClipboardData.has_text (c : ClipboardData) : Bool := pyTruthyStr c.text

/-- `ClipboardReader.read`, parameterized by the outcomes of the OS probes
`_read_text` (an optional string) and `_read_image` (optional PNG bytes). -/
def ClipboardReader.read (text : Option String) (image : Option (List Nat))
    (text_only : Bool) : Option ClipboardData :=
  if text_only then
    if pyTruthyStr text then
      some ⟨text, none, "image/png", pyTruthyBytes image⟩
    else if pyTruthyBytes image then
      some ⟨some "", none, "image/png", true⟩
    else none
  else
    if pyTruthyBytes image then
      some ⟨text, image, "image/png", true⟩
    else
      some ⟨text, none, "image/png", false⟩

/-! ## Model client (`src/magic_paste/services/model_client.py`)

`json.loads` (the Python standard library, not repository code) is modelled
as an abstract parameter `jloads : String → Option Json` over a JSON value
type; `None` models `json.JSONDecodeError`. -/

inductive Json where
  | null : Json
  | bool (b : Bool) : Json
  | num (n : Int) : Json
  | str (s : String) : Json
  | arr (xs : List Json) : Json
  | obj (kvs : List (String × Json)) : Json

mutual

/-- Python `repr` of a loaded JSON value (the shape matters only through
which branch of `pyStr` applies; titles from real model output are JSON
strings and take the `str` branch). -/
def pyRepr : Json → String
  | .null => "None"
  | .bool true => "True"
  | .bool false => "False"
  | .num n => toString n
  | .str s => "\x27" ++ s ++ "\x27"
  | .arr xs => "[" ++ String.intercalate ", " (pyReprList xs) ++ "]"
  | .obj kvs => "\x7b" ++ String.intercalate ", " (pyReprObj kvs) ++ "\x7d"

def pyReprList : List Json → List String
  | [] => []
  | x :: xs => pyRepr x :: pyReprList xs

def pyReprObj : List (String × Json) → List String
  | [] => []
  | kv :: kvs => ("\x27" ++ kv.1 ++ "\x27: " ++ pyRepr kv.2) :: pyReprObj kvs

end

/-- Python `str(...)` applied to a loaded JSON value. -/
def pyStr : Json → String
  | .str s => s
  | j => pyRepr j

/-- Python `item.get(k, "")` on a JSON object's key/value list. -/
def dictGetJ (kvs : List (String × Json)) (k : String) : Json :=
  ((kvs.find? (fun p => p.1 == k)).map (·.2)).getD (.str "")

/-- The loop body of `ModelClient._parse_intents`: non-dict items are
skipped; title/description/confidence are `str(...).strip()`-ed, confidence
is lowercased and coerced to `low`/`medium`/`high` with default `medium`;
entries with an empty title are dropped. -/
def parseIntentItem : Json → Option IntentCandidate
  | .obj kvs =>
    let title := pyStrip (pyStr (dictGetJ kvs "title"))
    let description := pyStrip (pyStr (dictGetJ kvs "description"))
    let conf0 := pyLower (pyStrip (pyStr (dictGetJ kvs "confidence")))
    let confidence :=
      if conf0 = "low" ∨ conf0 = "medium" ∨ conf0 = "high" then conf0
      else "medium"
    if title = "" then none else some ⟨title, description, confidence⟩
  | _ => none

def backtick : Char := Char.ofNat 96

def fence : List Char := [backtick, backtick, backtick]

def jsonTag : List Char := "json".toList

/-- `ModelClient._extract_json`, as a `List Char` computation. The regex
`(three backticks)(?:json)?\s*(.*)(three backticks)` with `re.DOTALL` and a
greedy group matches the text between the opening fence and the LAST
closing fence; on no match the whole stripped text is returned, and empty
input gives `None`. -/
def extract_json (text : String) : Option String :=
  if text = "" then none
  else
    let s := (pyStrip text).toList
    if s.take 3 = fence then
      let r1 := s.drop 3
      let r2 := if r1.take 4 = jsonTag then r1.drop 4 else r1
      let r3 := r2.dropWhile Char.isWhitespace
      match ((List.range r3.length).filter
          (fun i => (r3.drop i).take 3 = fence)).getLast? with
      | some i => some (pyStrip ⟨r3.take i⟩)
      | none => some ⟨s⟩
    else some ⟨s⟩

/-- `ModelClient._parse_intents`. `Except.error ()` models the uncaught
`TypeError` raised by `for item in data` when the parsed JSON is neither a
dict, a list, nor a string (iterating a string yields characters, which are
then skipped as non-dicts). A failed JSON parse (`jloads _ = none`) and
falsy cleaned text both yield the empty list. -/
def parse_intents (jloads : String → Option Json) (raw : String) :
    Except Unit (List IntentCandidate) :=
  match extract_json raw with
  | none => .ok []
  | some cleaned =>
    if cleaned = "" then .ok []
    else
      match jloads cleaned with
      | none => .ok []
      | some data =>
        match (match data with
               | .obj kvs => Json.arr [Json.obj kvs]
               | d => d) with
        | .arr items => .ok (items.filterMap parseIntentItem)
        | .str _ => .ok []
        | _ => .error ()

/-! ### Stage-2 streaming (`ModelClient._maybe_stream_chat` /
`generate_outputs`)

The transport is modelled by the deltas the stream yields (`deltas`), an
optional transport error the stream raises after them (`streamErr`), and
the outcome of a non-streaming `_chat` call (`chat`). The per-delta
callback is a function that may fail (`Except.error` models a raised
exception from the awaited coroutine). -/

/-- The `try` body of `_maybe_stream_chat`: iterate the stream, skip empty
deltas, accumulate and forward each delta to the callback; any exception
(from the callback or from the stream itself) aborts the attempt. -/
def stream_try (deltas : List String) (streamErr : Option String)
    (cb : String → Except String Unit) : Except String (List String) :=
  match deltas with
  | [] =>
    match streamErr with
    | some e => .error e
    | none => .ok []
  | d :: rest =>
    if d = "" then stream_try rest streamErr cb
    else
      match cb d with
      | .error e => .error e
      | .ok _ =>
        match stream_try rest streamErr cb with
        | .error e => .error e
        | .ok chunks => .ok (d :: chunks)

/-- The fallback tail of `_maybe_stream_chat`: one non-streaming `_chat`
call, then — outside any `try` — the full text is delivered to the callback
as one synthetic delta, so a callback exception here propagates. -/
def fallback_chat (chat : Except String String)
    (cb : String → Except String Unit) : Except String String :=
  match chat with
  | .error e => .error e
  | .ok txt =>
    if txt = "" then .ok txt
    else
      match cb txt with
      | .ok _ => .ok txt
      | .error e => .error e

/-- `ModelClient._maybe_stream_chat`. With no callback, a single
non-streaming call; otherwise the streaming attempt, falling back to the
non-streaming path when the attempt fails or yields no chunks. -/
def maybe_stream_chat (deltas : List String) (streamErr : Option String)
    (chat : Except String String)
    (cb : Option (String → Except String Unit)) : Except String String :=
  match cb with
  | none => chat
  | some f =>
    match stream_try deltas streamErr f with
    | .ok chunks =>
      if chunks.isEmpty then fallback_chat chat f
      else .ok (String.join chunks)
    | .error _ => fallback_chat chat f

/-- The `try`/`except` around the transport in
`ModelClient.generate_outputs`: success strips the response into `output`;
any exception becomes `output=""` plus `error=str(exc)`. -/
def mkStage2IntentResult (cand : IntentCandidate)
    (chat : Except String String) : IntentResult :=
  match chat with
  | .ok txt => ⟨cand.title, cand.description, cand.confidence,
      pyStrip txt, none, none⟩
  | .error e => ⟨cand.title, cand.description, cand.confidence,
      "", some e, none⟩

/-- `ModelClient.generate_outputs` (the concurrency semaphore only gates
scheduling and does not change the value computed). -/
def generate_outputs (cand : IntentCandidate) (deltas : List String)
    (streamErr : Option String) (chat : Except String String)
    (cb : Option (String → Except String Unit)) : IntentResult :=
  mkStage2IntentResult cand (maybe_stream_chat deltas streamErr chat cb)

/-! ## Orchestrator (`src/magic_paste/pipeline/orchestrator.py`) -/

def MANUAL_CANDIDATE_ID : String := "manual"

/-- `PipelineExecutor._build_manual_result` (locale fixed to the `en-US`
default of `normalize_locale`). -/
def build_manual_result (c : ClipboardData) : IntentResult :=
  let output :=
    if pyTruthyStr c.text then c.text.getD ""
    else if c.original_has_image then t "manual.image_output"
    else ""
  ⟨t "manual.title", t "manual.desc", "manual", output, none,
    some MANUAL_CANDIDATE_ID⟩

structure CandidateEntry where
  candidate_id : String
  candidate : IntentCandidate
deriving DecidableEq, Repr

structure PipelineResultM where
  results : List IntentResult
deriving DecidableEq, Repr

/-- Run-level failures of `PipelineExecutor._run`. In Python all three are
raised exceptions (`RuntimeError` with the i18n clipboard-empty message, a
transport exception escaping the stage-1 chat call, and the `TypeError`
from `_parse_intents` on a non-iterable JSON value). -/
inductive RunError where
  | clipboardEmpty (msg : String) : RunError
  | transport (msg : String) : RunError
  | stage1TypeError : RunError
deriving DecidableEq, Repr

/-- Configuration read from settings by `PipelineExecutor.__init__` /
`_build_stage1_payload` (locale fixed to `en-US`). -/
structure RunConfig where
  text_only : Bool
  max_candidates : Nat

/-- Outcomes of the external collaborators consumed by one `_run`:
the clipboard probes, the stage-1 chat transport (`.ok` carries the raw
response text), `json.loads`, the `uuid.uuid4().hex` draws assigning
candidate ids in stage-1 order, and the per-candidate outcome of
`_maybe_stream_chat` in stage 2 (the orchestrator's `_on_chunk` callback
never raises, because `_emit` swallows event-callback exceptions). -/
structure RunInputs where
  clipText : Option String
  clipImage : Option (List Nat)
  stage1Chat : Except String String
  jloads : String → Option Json
  genId : Nat → String
  stage2Chat : Nat → Except String String

/-- The stage-1 candidate entries (`CandidateEntry(candidate_id=
uuid.uuid4().hex, candidate=...)` in stage-1 order); the index tracks which
uuid draw each candidate receives. -/
def entriesAux (genId : Nat → String) (i : Nat) :
    List IntentCandidate → List CandidateEntry
  | [] => []
  | c :: cs => ⟨genId i, c⟩ :: entriesAux genId (i + 1) cs

/-- `{ r with candidate_id := some cid }`: the assignment
`result.candidate_id = entry.candidate_id` in `_generate_single_candidate`. -/
def setCid (cid : String) (r : IntentResult) : IntentResult :=
  { r with candidate_id := some cid }

/-- The `(candidate_id, result)` pairs produced by the stage-2 tasks, in
task order (which is how `asyncio.gather` returns them). -/
def taskOutputsAux (inp : RunInputs) (i : Nat) :
    List IntentCandidate → List (String × IntentResult)
  | [] => []
  | c :: cs =>
    (inp.genId i, setCid (inp.genId i)
        (mkStage2IntentResult c (inp.stage2Chat i)))
      :: taskOutputsAux inp (i + 1) cs

/-- The tail of `PipelineExecutor._run_stage2_generation`: collect the
gathered `(candidate_id, result)` pairs into a dict (last write wins) and
re-index by the original stage-1 candidate order, keeping an entry only if
its id is present in the dict. -/
def run_stage2_generation (entries : List CandidateEntry)
    (gathered : List (String × IntentResult)) : List IntentResult :=
  entries.filterMap (fun e => lookupLast gathered e.candidate_id)

/-- `PipelineExecutor._run`. Event emission and history writes are side
effects with no influence on the returned value; `run_completed` is emitted
exactly when this function returns `.ok` (it is the last `_emit` before
each `return`, and `_emit` never raises). -/
def pipelineRun (cfg : RunConfig) (inp : RunInputs) :
    Except RunError PipelineResultM :=
  match ClipboardReader.read inp.clipText inp.clipImage cfg.text_only with
  | none => .error (.clipboardEmpty (t "errors.clipboard_empty"))
  | some clipboard =>
    let manualResult := build_manual_result clipboard
    if cfg.text_only && !clipboard.has_text then
      .ok ⟨[manualResult]⟩
    else
      match inp.stage1Chat with
      | .error e => .error (.transport e)
      | .ok raw =>
        match parse_intents inp.jloads raw with
        | .error _ => .error .stage1TypeError
        | .ok parsed =>
          let intents := parsed.take cfg.max_candidates
          .ok ⟨run_stage2_generation (entriesAux inp.genId 0 intents)
                 (taskOutputsAux inp 0 intents) ++ [manualResult]⟩

/-! ## Run coordinator (`src/magic_paste/server/app.py`)

The event payload dict is modelled as a record of the keys the coordinator
reads (`payload.get(k)` of a missing key is `none`/a default). -/

structure CandItem where
  is_manual : Bool
  initial_output : Option String
deriving DecidableEq, Repr

structure EventPayload where
  candidate_id : Option String := none
  delta_text : Option String := none
  is_final : Bool := false
  error : Option String := none
  items : List CandItem := []
deriving Repr

structure PipelineEvent where
  request_id : String
  type : String
  payload : EventPayload
deriving Repr

/-- `PipelineCoordinator` state: `_tasks` (only the tracked run ids
matter), `_results`, `_partial_outputs` and `_manual_outputs`. -/
structure CoordState where
  tasks : List String
  results : List (String × PipelineResultM)
  partial_outputs : List (String × List (String × String))
  manual_outputs : List (String × String)
deriving Repr

/-- `PipelineCoordinator.handle_event`. -/
def handle_event (st : CoordState) (e : PipelineEvent) : CoordState :=
  if e.type = "preview_chunk" then
    if pyTruthyStr e.payload.candidate_id = false then st
    else
      let cid := e.payload.candidate_id.getD ""
      let st1 :=
        if pyTruthyStr e.payload.delta_text then
          let outer := (dget st.partial_outputs e.request_id).getD []
          let buf := (dget outer cid).getD ""
          let po := dset st.partial_outputs e.request_id
            (dset outer cid (buf ++ e.payload.delta_text.getD ""))
          { st with partial_outputs := po }
        else if e.payload.is_final then
          let outer := (dget st.partial_outputs e.request_id).getD []
          let outer' :=
            if (dget outer cid).isSome then outer else dset outer cid ""
          let po := dset st.partial_outputs e.request_id outer'
          { st with partial_outputs := po }
        else st
      if pyTruthyStr e.payload.error then
        let outer := (dget st1.partial_outputs e.request_id).getD []
        let po := dset st1.partial_outputs e.request_id (dset outer cid "")
        { st1 with partial_outputs := po }
      else st1
  else if e.type = "candidates" then
    let mo := e.payload.items.foldl
      (fun m item =>
        if item.is_manual then dset m e.request_id (item.initial_output.getD "")
        else m)
      st.manual_outputs
    { st with manual_outputs := mo }
  else st

/-- Store (1) of `PipelineCoordinator.get_candidate_output`: the first
matching entry of the stored final `PipelineResult`, if the run completed. -/
def finalOutputLookup (st : CoordState) (request_id candidate_id : String) :
    Option String :=
  match dget st.results request_id with
  | some res =>
    (res.results.find?
        (fun item => item.candidate_id == some candidate_id)).map (·.output)
  | none => none

/-- Store (2): the manual-output shortcut; note the Python `if manual:`
truthiness check, under which a stored empty string is skipped. -/
def manualShortcutLookup (st : CoordState)
    (request_id candidate_id : String) : Option String :=
  if candidate_id = MANUAL_CANDIDATE_ID then
    match dget st.manual_outputs request_id with
    | some m => if m ≠ "" then some m else none
    | none => none
  else none

/-- Store (3): the partial-output buffer. -/
def partialBufferLookup (st : CoordState)
    (request_id candidate_id : String) : Option String :=
  dget ((dget st.partial_outputs request_id).getD []) candidate_id

/-- `PipelineCoordinator.get_candidate_output`. -/
def get_candidate_output (st : CoordState)
    (request_id candidate_id : String) : Option String :=
  match finalOutputLookup st request_id candidate_id with
  | some out => some out
  | none =>
    match manualShortcutLookup st request_id candidate_id with
    | some m => some m
    | none => partialBufferLookup st request_id candidate_id

/-- `PipelineCoordinator.cancel_run`: pop the task (cancelling it is a
scheduler side effect), clear the run's partial and manual buffers, report
whether a tracked task was found. `_results` is not touched. -/
def cancel_run (st : CoordState) (request_id : String) :
    CoordState × Bool :=
  (⟨st.tasks.erase request_id, st.results,
      dpop st.partial_outputs request_id,
      dpop st.manual_outputs request_id⟩,
    st.tasks.contains request_id)

/-! ## Generic lemmas about the dictionary helpers -/

theorem dget_dpop_self {α : Type} (l : List (String × α)) (k : String) :
    dget (dpop l k) k = none := by
  unfold dget dpop
  have hfind : (List.filter (fun p => !(p.1 == k)) l).find?
      (fun p => p.1 == k) = none := by
    rw [List.find?_eq_none]
    intro x hx
    have hx2 := (List.mem_filter.mp hx).2
    simp only [Bool.not_eq_true'] at hx2
    simp [hx2]
  rw [hfind]
  rfl

theorem lookupLast_mem {α : Type} {l : List (String × α)} {k : String}
    {v : α} (h : lookupLast l k = some v) : (k, v) ∈ l := by
  unfold lookupLast at h
  cases hg : (l.filter (fun p => p.1 == k)).getLast? with
  | none => rw [hg] at h; simp at h
  | some p =>
    rw [hg] at h
    have hmem : p ∈ l.filter (fun p => p.1 == k) := by
      obtain ⟨hne, hEq⟩ := List.mem_getLast?_eq_getLast (Option.mem_def.mpr hg)
      rw [hEq]
      exact List.getLast_mem hne
    have := List.mem_filter.mp hmem
    have hk : p.1 = k := by simpa using this.2
    have hv : p.2 = v := by simpa using h
    have : (k, v) = p := by
      cases p; simp_all
    rw [this]; exact (List.mem_filter.mp hmem).1

theorem filter_key_nil {α : Type} {l : List (String × α)} {k : String}
    (h : k ∉ l.map Prod.fst) : l.filter (fun p => p.1 == k) = [] := by
  induction l with
  | nil => rfl
  | cons p rest ih =>
    simp only [List.map_cons, List.mem_cons] at h
    push_neg at h
    have hp : (p.1 == k) = false := by
      simp [Ne.symm h.1]
    simp [List.filter, hp, ih h.2]

theorem filter_key_singleton {α : Type} {l : List (String × α)}
    {p : String × α} (hnd : (l.map Prod.fst).Nodup) (hp : p ∈ l) :
    l.filter (fun q => q.1 == p.1) = [p] := by
  induction l with
  | nil => simp at hp
  | cons q rest ih =>
    simp only [List.map_cons, List.nodup_cons] at hnd
    rcases List.mem_cons.mp hp with h | h
    · subst h
      have : rest.filter (fun r => r.1 == p.1) = [] :=
        filter_key_nil hnd.1
      simp [List.filter, this]
    · have hne : (q.1 == p.1) = false := by
        have : p.1 ∈ rest.map Prod.fst := List.mem_map_of_mem Prod.fst h
        have : q.1 ≠ p.1 := fun hEq => hnd.1 (hEq ▸ this)
        simp [this]
      simp [List.filter, hne, ih hnd.2 h]

theorem lookupLast_of_perm {α : Type} {gathered pairs : List (String × α)}
    (hperm : gathered.Perm pairs) (hnd : (pairs.map Prod.fst).Nodup)
    {p : String × α} (hp : p ∈ pairs) : lookupLast gathered p.1 = some p.2 := by
  unfold lookupLast
  have hfp : (gathered.filter (fun q => q.1 == p.1)).Perm
      (pairs.filter (fun q => q.1 == p.1)) := hperm.filter _
  rw [filter_key_singleton hnd hp] at hfp
  rw [List.perm_singleton.mp hfp]
  rfl

theorem lookupLast_isSome_of_mem_keys {α : Type}
    {l : List (String × α)} {k : String} (h : k ∈ l.map Prod.fst) :
    ∃ v, lookupLast l k = some v := by
  have hne : l.filter (fun q => q.1 == k) ≠ [] := by
    simp only [List.mem_map] at h
    obtain ⟨p, hp, hk⟩ := h
    intro hnil
    have hmem : p ∈ l.filter (fun q => q.1 == k) :=
      List.mem_filter.mpr ⟨hp, by simp [hk]⟩
    rw [hnil] at hmem
    simp at hmem
  cases hg : (l.filter (fun q => q.1 == k)).getLast? with
  | none => exact absurd (List.getLast?_eq_none_iff.mp hg) hne
  | some q =>
    refine ⟨q.2, ?_⟩
    unfold lookupLast
    rw [hg]
    rfl

/-! ## Lemmas about the stage-2 fan-out -/

/-- The candidate-id draws used from index `i` for `n` candidates. -/
def idsFrom (g : Nat → String) (i n : Nat) : List String :=
  match n with
  | 0 => []
  | m + 1 => g i :: idsFrom g (i + 1) m

theorem mem_idsFrom {g : Nat → String} {i n : Nat} {k : String} :
    k ∈ idsFrom g i n ↔ ∃ j, i ≤ j ∧ j < i + n ∧ k = g j := by
  induction n generalizing i with
  | zero =>
    simp only [idsFrom, List.not_mem_nil, false_iff]
    rintro ⟨j, h1, h2, _⟩
    omega
  | succ m ih =>
    simp only [idsFrom, List.mem_cons, ih]
    constructor
    · rintro (h | ⟨j, h1, h2, h3⟩)
      · exact ⟨i, le_refl i, by omega, h⟩
      · exact ⟨j, by omega, by omega, h3⟩
    · rintro ⟨j, h1, h2, h3⟩
      by_cases hj : j = i
      · left; rw [h3, hj]
      · right; exact ⟨j, by omega, by omega, h3⟩

theorem idsFrom_nodup {g : Nat → String} {i n : Nat}
    (hinj : ∀ a b, i ≤ a → a < i + n → i ≤ b → b < i + n →
      g a = g b → a = b) : (idsFrom g i n).Nodup := by
  induction n generalizing i with
  | zero => exact List.nodup_nil
  | succ m ih =>
    refine List.nodup_cons.mpr ⟨?_, ?_⟩
    · intro hmem
      obtain ⟨j, h1, h2, h3⟩ := mem_idsFrom.mp hmem
      have := hinj i j (le_refl i) (by omega) (by omega) (by omega) h3
      omega
    · exact ih (fun a b ha1 ha2 hb1 hb2 hEq =>
        hinj a b (by omega) (by omega) (by omega) (by omega) hEq)

theorem taskOutputsAux_fst (inp : RunInputs) (i : Nat)
    (cs : List IntentCandidate) :
    (taskOutputsAux inp i cs).map Prod.fst = idsFrom inp.genId i cs.length := by
  induction cs generalizing i with
  | nil => rfl
  | cons c rest ih => simp [taskOutputsAux, idsFrom, ih]

theorem entriesAux_cids (g : Nat → String) (i : Nat)
    (cs : List IntentCandidate) :
    (entriesAux g i cs).map CandidateEntry.candidate_id = idsFrom g i cs.length := by
  induction cs generalizing i with
  | nil => rfl
  | cons c rest ih => simp [entriesAux, idsFrom, ih]

theorem taskOutputsAux_length (inp : RunInputs) (i : Nat)
    (cs : List IntentCandidate) : (taskOutputsAux inp i cs).length = cs.length := by
  induction cs generalizing i with
  | nil => rfl
  | cons c rest ih => simp [taskOutputsAux, ih]

theorem mem_taskOutputsAux {inp : RunInputs} {i : Nat}
    {cs : List IntentCandidate} {kv : String × IntentResult}
    (h : kv ∈ taskOutputsAux inp i cs) :
    ∃ j, i ≤ j ∧ j < i + cs.length ∧ kv.1 = inp.genId j ∧
      kv.2.candidate_id = some (inp.genId j) := by
  induction cs generalizing i with
  | nil => simp [taskOutputsAux] at h
  | cons c rest ih =>
    simp only [taskOutputsAux, List.mem_cons] at h
    rcases h with h | h
    · exact ⟨i, le_refl i, by simp, by rw [h], by rw [h]; rfl⟩
    · obtain ⟨j, h1, h2, h3, h4⟩ := ih h
      exact ⟨j, by omega, by simp; omega, h3, h4⟩

theorem taskOutputsAux_get (inp : RunInputs) (i : Nat)
    (cs : List IntentCandidate) (j : Nat) :
    (taskOutputsAux inp i cs).get? j = (cs.get? j).map
      (fun c => (inp.genId (i + j), setCid (inp.genId (i + j))
        (mkStage2IntentResult c (inp.stage2Chat (i + j))))) := by
  induction cs generalizing i j with
  | nil => simp [taskOutputsAux]
  | cons c rest ih =>
    cases j with
    | zero => simp [taskOutputsAux]
    | succ m =>
      simp only [taskOutputsAux, List.get?_cons_succ, ih (i + 1) m]
      have : i + 1 + m = i + (m + 1) := by omega
      rw [this]

theorem taskOutputsAux_snd_cid (inp : RunInputs) (i : Nat)
    (cs : List IntentCandidate) :
    (taskOutputsAux inp i cs).map (fun kv => kv.2.candidate_id) =
      (idsFrom inp.genId i cs.length).map some := by
  induction cs generalizing i with
  | nil => rfl
  | cons c rest ih => simp [taskOutputsAux, idsFrom, ih, setCid]

/-- Collecting the gathered pairs into a dict and re-indexing by candidate
order recovers exactly one result per pair, in candidate order — for ANY
permutation `gathered` of the produced pairs (i.e. regardless of the order
in which the concurrent stage-2 calls complete). -/
theorem run_stage2_eq_pairs (entries : List CandidateEntry)
    (pairs gathered : List (String × IntentResult))
    (hkeys : pairs.map Prod.fst = entries.map CandidateEntry.candidate_id)
    (hlook : ∀ p ∈ pairs, lookupLast gathered p.1 = some p.2) :
    run_stage2_generation entries gathered = pairs.map Prod.snd := by
  induction entries generalizing pairs with
  | nil =>
    have : pairs = [] := by
      have := hkeys
      simp only [List.map_nil] at this
      exact List.map_eq_nil_iff.mp this
    rw [this]
    rfl
  | cons e es ih =>
    cases pairs with
    | nil => simp at hkeys
    | cons p ps =>
      simp only [List.map_cons, List.cons.injEq] at hkeys
      have hp := hlook p (List.mem_cons_self p ps)
      rw [hkeys.1] at hp
      simp only [run_stage2_generation, List.filterMap_cons, hp]
      have hrest := ih ps hkeys.2 (fun q hq => hlook q (List.mem_cons_of_mem p hq))
      unfold run_stage2_generation at hrest
      rw [hrest]
      rfl

theorem run_stage2_of_perm (entries : List CandidateEntry)
    (pairs gathered : List (String × IntentResult))
    (hkeys : pairs.map Prod.fst = entries.map CandidateEntry.candidate_id)
    (hnd : (pairs.map Prod.fst).Nodup)
    (hperm : gathered.Perm pairs) :
    run_stage2_generation entries gathered = pairs.map Prod.snd :=
  run_stage2_eq_pairs entries pairs gathered hkeys
    (fun _ hp => lookupLast_of_perm hperm hnd hp)

/-- The task-order case (what `asyncio.gather` actually returns). -/
theorem run_stage2_taskorder (inp : RunInputs) (cs : List IntentCandidate)
    (hinj : ∀ a b, a < cs.length → b < cs.length →
      inp.genId a = inp.genId b → a = b) :
    run_stage2_generation (entriesAux inp.genId 0 cs)
      (taskOutputsAux inp 0 cs) = (taskOutputsAux inp 0 cs).map Prod.snd := by
  apply run_stage2_of_perm
  · rw [taskOutputsAux_fst, entriesAux_cids]
  · rw [taskOutputsAux_fst]
    exact idsFrom_nodup (fun a b _ ha _ hb hEq =>
      hinj a b (by omega) (by omega) hEq)
  · exact List.Perm.refl _

theorem mem_run_stage2 {entries : List CandidateEntry}
    {gathered : List (String × IntentResult)} {r : IntentResult}
    (h : r ∈ run_stage2_generation entries gathered) :
    ∃ k, (k, r) ∈ gathered := by
  unfold run_stage2_generation at h
  obtain ⟨e, _, hl⟩ := List.mem_filterMap.mp h
  exact ⟨e.candidate_id, lookupLast_mem hl⟩

theorem filterMap_length_of_all_some {α β : Type} {l : List α}
    {f : α → Option β} (h : ∀ a ∈ l, ∃ v, f a = some v) :
    (l.filterMap f).length = l.length := by
  induction l with
  | nil => rfl
  | cons a rest ih =>
    obtain ⟨v, hv⟩ := h a (List.mem_cons_self a rest)
    simp only [List.filterMap_cons, hv, List.length_cons]
    rw [ih (fun b hb => h b (List.mem_cons_of_mem a hb))]

theorem entriesAux_length (g : Nat → String) (i : Nat)
    (cs : List IntentCandidate) : (entriesAux g i cs).length = cs.length := by
  induction cs generalizing i with
  | nil => rfl
  | cons c rest ih => simp [entriesAux, ih]

theorem run_stage2_length (inp : RunInputs) (cs : List IntentCandidate) :
    (run_stage2_generation (entriesAux inp.genId 0 cs)
      (taskOutputsAux inp 0 cs)).length = cs.length := by
  unfold run_stage2_generation
  have hkeys : ∀ e ∈ entriesAux inp.genId 0 cs,
      ∃ v, lookupLast (taskOutputsAux inp 0 cs) e.candidate_id = some v := by
    intro e he
    apply lookupLast_isSome_of_mem_keys
    rw [taskOutputsAux_fst]
    rw [← entriesAux_cids inp.genId 0 cs]
    exact List.mem_map_of_mem CandidateEntry.candidate_id he
  rw [filterMap_length_of_all_some hkeys]
  exact entriesAux_length inp.genId 0 cs

/-! ## Branch characterizations of `pipelineRun` -/

theorem pipelineRun_normal (cfg : RunConfig) (inp : RunInputs) (c : ClipboardData)
    (raw : String) (parsed : List IntentCandidate)
    (hread : ClipboardReader.read inp.clipText inp.clipImage cfg.text_only = some c)
    (hshort : (cfg.text_only && !c.has_text) = false)
    (hs1 : inp.stage1Chat = Except.ok raw)
    (hparse : parse_intents inp.jloads raw = Except.ok parsed) :
    pipelineRun cfg inp = .ok ⟨run_stage2_generation
      (entriesAux inp.genId 0 (parsed.take cfg.max_candidates))
      (taskOutputsAux inp 0 (parsed.take cfg.max_candidates)) ++
      [build_manual_result c]⟩ := by
  unfold pipelineRun
  rw [hread, hs1]
  simp [hshort, hparse]

theorem pipelineRun_short (cfg : RunConfig) (inp : RunInputs) (c : ClipboardData)
    (hread : ClipboardReader.read inp.clipText inp.clipImage cfg.text_only = some c)
    (hshort : (cfg.text_only && !c.has_text) = true) :
    pipelineRun cfg inp = .ok ⟨[build_manual_result c]⟩ := by
  unfold pipelineRun
  rw [hread]
  simp [hshort]

theorem pipelineRun_ok_cases (cfg : RunConfig) (inp : RunInputs)
    (out : PipelineResultM) (hok : pipelineRun cfg inp = .ok out) :
    (∃ c, ClipboardReader.read inp.clipText inp.clipImage cfg.text_only = some c ∧
       out = ⟨[build_manual_result c]⟩) ∨
    (∃ c raw parsed,
       ClipboardReader.read inp.clipText inp.clipImage cfg.text_only = some c ∧
       (cfg.text_only && !c.has_text) = false ∧
       inp.stage1Chat = Except.ok raw ∧
       parse_intents inp.jloads raw = Except.ok parsed ∧
       out = ⟨run_stage2_generation
         (entriesAux inp.genId 0 (parsed.take cfg.max_candidates))
         (taskOutputsAux inp 0 (parsed.take cfg.max_candidates)) ++
         [build_manual_result c]⟩) := by
  unfold pipelineRun at hok
  split at hok
  · exact absurd hok (by simp)
  · rename_i c hc
    split at hok
    · left
      refine ⟨c, hc, ?_⟩
      injection hok with h
      rw [← h]
    · rename_i hshort
      split at hok
      · exact absurd hok (by simp)
      · rename_i raw hraw
        split at hok
        · exact absurd hok (by simp)
        · rename_i parsed hparsed
          right
          refine ⟨c, raw, parsed, hc, by simpa using hshort, hraw, hparsed, ?_⟩
          injection hok with h
          rw [← h]

/-! ## Claim C1 -/

/-- C1: for every run that returns a result list (the text-only
short-circuit path included; a returned list also covers stage-1 parse
degradation to zero candidates and stage-2 per-candidate failures, which
are absorbed into `IntentResult.error`), the list contains exactly one
`IntentResult` whose candidate id is the reserved manual id, and it is the
last element. The hypothesis `hlen` models that `uuid.uuid4().hex` always
has 32 hex digits, so no generated id can equal `"manual"`. -/
theorem run_manual_candidate_unique_last (cfg : RunConfig) (inp : RunInputs)
    (out : PipelineResultM)
    (hlen : ∀ n, (inp.genId n).length = 32)
    (hok : pipelineRun cfg inp = .ok out) :
    out.results.countP (fun r => r.candidate_id == some MANUAL_CANDIDATE_ID) = 1 ∧
    ∃ last, out.results.getLast? = some last ∧
      last.candidate_id = some MANUAL_CANDIDATE_ID := by
  rcases pipelineRun_ok_cases cfg inp out hok with
      ⟨c, _, hout⟩ | ⟨c, raw, parsed, _, _, _, _, hout⟩
  · subst hout
    exact ⟨by simp [List.countP_cons, build_manual_result], _, rfl, rfl⟩
  · subst hout
    have hstage2 : ∀ r ∈ run_stage2_generation
        (entriesAux inp.genId 0 (parsed.take cfg.max_candidates))
        (taskOutputsAux inp 0 (parsed.take cfg.max_candidates)),
        ¬((fun r => r.candidate_id == some MANUAL_CANDIDATE_ID) r = true) := by
      intro r hr
      obtain ⟨k, hkv⟩ := mem_run_stage2 hr
      obtain ⟨j, _, _, _, hcid⟩ := mem_taskOutputsAux hkv
      simp only at hcid
      have hne : inp.genId j ≠ MANUAL_CANDIDATE_ID := by
        intro hEq
        have h32 := hlen j
        rw [hEq] at h32
        unfold MANUAL_CANDIDATE_ID at h32
        exact absurd h32 (by decide)
      simp [hcid, hne]
    constructor
    · rw [List.countP_append, List.countP_eq_zero.mpr hstage2]
      simp [List.countP_cons, build_manual_result]
    · exact ⟨build_manual_result c, List.getLast?_concat _, rfl⟩

/-- A 32-hex-digit candidate id used by concrete witnesses. -/
def idW : String := "0123456789abcdef0123456789abcdef"

def inpW1 : RunInputs :=
  ⟨some "hello", none, .ok "x",
    fun _ => some (.arr [.obj [("title", .str "A")]]),
    fun _ => idW, fun _ => .ok "out"⟩

/-- C1 witness: a concrete run (clipboard text `"hello"`, one generated
candidate) evaluated end to end, with the theorem applied to it. -/
theorem run_manual_candidate_unique_last_instance :
    pipelineRun ⟨false, 4⟩ inpW1 = .ok
      ⟨[⟨"A", "", "medium", "out", none, some idW⟩,
        ⟨"Paste as-is", "Keep the original clipboard content without changes.",
          "manual", "hello", none, some "manual"⟩]⟩ ∧
    ((pipelineRun ⟨false, 4⟩ inpW1).toOption.getD ⟨[]⟩).results.countP
        (fun r => r.candidate_id == some MANUAL_CANDIDATE_ID) = 1 ∧
    ∃ last, ((pipelineRun ⟨false, 4⟩ inpW1).toOption.getD ⟨[]⟩).results.getLast? =
        some last ∧ last.candidate_id = some MANUAL_CANDIDATE_ID := by
  refine ⟨by rfl, ?_⟩
  exact run_manual_candidate_unique_last ⟨false, 4⟩ inpW1 _ (fun _ => rfl) (by rfl)

/-! ## Claim C2 -/

theorem read_none_iff (text : Option String) (image : Option (List Nat))
    (text_only : Bool) :
    ClipboardReader.read text image text_only = none ↔
      (text_only = true ∧ pyTruthyStr text = false ∧
        pyTruthyBytes image = false) := by
  unfold ClipboardReader.read
  cases text_only with
  | false =>
    by_cases hi : pyTruthyBytes image = true <;> simp [hi]
  | true =>
    by_cases ht : pyTruthyStr text = true
    · simp [ht]
    · by_cases hi : pyTruthyBytes image = true <;> simp [ht, hi]

/-- C2 counterexample: with `text_only=false` and a clipboard holding no
text and no image, the run does NOT fail with ClipboardEmpty — `read`
returns a truthy `ClipboardData(text=None)`, so the run proceeds to the
stage-1 network call: a transport failure there surfaces as the run error
(first conjunct), and with a reachable backend the run even completes with
the manual candidate (second conjunct). -/
theorem empty_clipboard_reaches_network_counterexample :
    pipelineRun ⟨false, 4⟩
        ⟨none, none, .error "connection refused", fun _ => none,
          fun _ => idW, fun _ => .ok ""⟩ =
      .error (.transport "connection refused") ∧
    pipelineRun ⟨false, 4⟩
        ⟨none, none, .ok "not json", fun _ => none,
          fun _ => idW, fun _ => .ok ""⟩ =
      .ok ⟨[⟨"Paste as-is",
        "Keep the original clipboard content without changes.",
        "manual", "", none, some "manual"⟩]⟩ := ⟨rfl, rfl⟩

/-- C2 (amended): the run fails with the ClipboardEmpty error exactly when
text-only mode is enabled and the clipboard holds no text and no image; in
that case the failure happens before any network call (the model-backend
outcome `s1` is irrelevant to it). In non-text-only mode an empty
clipboard never raises ClipboardEmpty. -/
theorem clipboard_empty_error_iff (cfg : RunConfig) (inp : RunInputs) :
    ((∃ m, pipelineRun cfg inp = .error (.clipboardEmpty m)) ↔
      (cfg.text_only = true ∧ pyTruthyStr inp.clipText = false ∧
        pyTruthyBytes inp.clipImage = false)) ∧
    (cfg.text_only = true → pyTruthyStr inp.clipText = false →
      pyTruthyBytes inp.clipImage = false →
      ∀ s1, pipelineRun cfg { inp with stage1Chat := s1 } =
        .error (.clipboardEmpty (t "errors.clipboard_empty"))) := by
  constructor
  · constructor
    · rintro ⟨m, hm⟩
      cases hr : ClipboardReader.read inp.clipText inp.clipImage cfg.text_only with
      | none => exact (read_none_iff _ _ _).mp hr
      | some c =>
        exfalso
        unfold pipelineRun at hm
        rw [hr] at hm
        simp only at hm
        split at hm
        · exact absurd hm (by simp)
        · split at hm
          · rename_i e _
            injection hm with h
            cases h
          · split at hm
            · injection hm with h
              cases h
            · exact absurd hm (by simp)
    · rintro ⟨h1, h2, h3⟩
      have hr : ClipboardReader.read inp.clipText inp.clipImage cfg.text_only = none :=
        (read_none_iff _ _ _).mpr ⟨h1, h2, h3⟩
      refine ⟨t "errors.clipboard_empty", ?_⟩
      unfold pipelineRun
      rw [hr]
  · intro h1 h2 h3 s1
    have hr : ClipboardReader.read inp.clipText inp.clipImage cfg.text_only = none :=
      (read_none_iff _ _ _).mpr ⟨h1, h2, h3⟩
    unfold pipelineRun
    simp only
    rw [show ({ inp with stage1Chat := s1 } : RunInputs).clipText = inp.clipText from rfl,
      show ({ inp with stage1Chat := s1 } : RunInputs).clipImage = inp.clipImage from rfl,
      hr]

/-- C2 witness: a text-only run with an empty clipboard fails with the
ClipboardEmpty error regardless of the backend outcome. -/
theorem clipboard_empty_error_iff_instance :
    pipelineRun ⟨true, 4⟩
        ⟨none, none, .ok "zz", fun _ => none, fun _ => idW, fun _ => .ok ""⟩ =
      .error (.clipboardEmpty (t "errors.clipboard_empty")) :=
  (clipboard_empty_error_iff ⟨true, 4⟩
    ⟨none, none, .error "x", fun _ => none, fun _ => idW, fun _ => .ok ""⟩).2
    rfl rfl rfl (.ok "zz")

/-! ## Claim C3 -/

/-- C3 (amended): `get_candidate_output` resolves in the order (1) final
stored RunResult entry, (2) manual-output shortcut, (3) partial-output
buffer — with the correction that the manual shortcut of store (2) is used
only when the stored manual output is non-empty (the Python `if manual:`
truthiness check): a stored empty manual output is skipped, falling through
to the partial buffer, so the lookup can return nothing even though the
manual map has an (empty-string) entry. Stored empty strings in stores (1)
and (3) are still returned as ready empty strings (conjuncts 1 and 4), and
the lookup returns nothing exactly when all three stores yield nothing
(conjunct 5). -/
theorem get_candidate_output_resolution (st : CoordState)
    (rid cid : String) :
    (∀ o, finalOutputLookup st rid cid = some o →
       get_candidate_output st rid cid = some o) ∧
    (finalOutputLookup st rid cid = none →
       ∀ m, manualShortcutLookup st rid cid = some m →
         get_candidate_output st rid cid = some m ∧ m ≠ "") ∧
    (cid = MANUAL_CANDIDATE_ID → dget st.manual_outputs rid = some "" →
       manualShortcutLookup st rid cid = none) ∧
    (finalOutputLookup st rid cid = none →
       manualShortcutLookup st rid cid = none →
       get_candidate_output st rid cid = partialBufferLookup st rid cid) ∧
    (get_candidate_output st rid cid = none ↔
       finalOutputLookup st rid cid = none ∧
       manualShortcutLookup st rid cid = none ∧
       partialBufferLookup st rid cid = none) := by
  refine ⟨?_, ?_, ?_, ?_, ?_⟩
  · intro o ho
    unfold get_candidate_output
    rw [ho]
  · intro hf m hm
    refine ⟨by unfold get_candidate_output; rw [hf, hm], ?_⟩
    unfold manualShortcutLookup at hm
    split at hm
    · split at hm
      · split at hm
        · rename_i h0
          injection hm with h
          rw [← h]; exact h0
        · simp at hm
      · simp at hm
    · simp at hm
  · intro hc hd
    unfold manualShortcutLookup
    rw [if_pos hc, hd]
    simp
  · intro hf hm
    unfold get_candidate_output
    rw [hf, hm]
  · unfold get_candidate_output
    cases hf : finalOutputLookup st rid cid with
    | some o => simp [hf]
    | none =>
      cases hm : manualShortcutLookup st rid cid with
      | some m => simp [hm]
      | none => simp [hm]

/-- C3 counterexample: a coordinator state whose manual-output map has an
entry (the empty string) for run `"r"`, no stored result and no partial
buffer. `get_candidate_output` returns nothing ("not ready") even though
one of the three stores has an entry — refuting "returns nothing only when
none of the three has an entry" and "a stored empty string is returned as
a ready empty string, never as not ready". Reachable: the manual output is
`""` whenever the clipboard snapshot has neither text nor an image flag. -/
theorem manual_empty_output_not_ready_counterexample :
    get_candidate_output ⟨[], [], [], [("r", "")]⟩ "r" "manual" = none ∧
    dget (⟨[], [], [], [("r", "")]⟩ : CoordState).manual_outputs "r" =
      some "" := ⟨rfl, rfl⟩

/-- C3 witness: a stored final result with empty output is returned as a
ready empty string. -/
theorem get_candidate_output_resolution_instance :
    get_candidate_output
        ⟨[], [("r", ⟨[⟨"T", "D", "high", "", none, some "c"⟩]⟩)], [], []⟩
        "r" "c" = some "" :=
  (get_candidate_output_resolution
    ⟨[], [("r", ⟨[⟨"T", "D", "high", "", none, some "c"⟩]⟩)], [], []⟩
    "r" "c").1 "" rfl

/-! ## Claim C8 -/

/-- C8 (amended): `cancel_run` returns true exactly when a still-tracked
task was found, and removes the run's partial-output buffer entries and
manual-output shortcut; every subsequent `get_candidate_output` call for
that run returns nothing PROVIDED the run has no stored final result
(`_results` is untouched by cancellation, so outputs of an
already-completed run remain retrievable). -/
theorem cancel_run_clears_buffers (st : CoordState) (rid : String) :
    ((cancel_run st rid).2 = true ↔ rid ∈ st.tasks) ∧
    dget (cancel_run st rid).1.partial_outputs rid = none ∧
    dget (cancel_run st rid).1.manual_outputs rid = none ∧
    (cancel_run st rid).1.results = st.results ∧
    (dget st.results rid = none →
      ∀ cid, get_candidate_output (cancel_run st rid).1 rid cid = none) := by
  refine ⟨?_, dget_dpop_self _ _, dget_dpop_self _ _, rfl, ?_⟩
  · exact List.elem_iff
  · intro h cid
    have h1 : finalOutputLookup (cancel_run st rid).1 rid cid = none := by
      unfold finalOutputLookup
      rw [show (cancel_run st rid).1.results = st.results from rfl, h]
    have h2 : manualShortcutLookup (cancel_run st rid).1 rid cid = none := by
      unfold manualShortcutLookup
      by_cases hc : cid = MANUAL_CANDIDATE_ID
      · rw [if_pos hc, show (cancel_run st rid).1.manual_outputs =
          dpop st.manual_outputs rid from rfl, dget_dpop_self]
      · rw [if_neg hc]
    have h3 : partialBufferLookup (cancel_run st rid).1 rid cid = none := by
      unfold partialBufferLookup
      rw [show (cancel_run st rid).1.partial_outputs =
        dpop st.partial_outputs rid from rfl, dget_dpop_self]
      rfl
    unfold get_candidate_output
    rw [h1, h2, h3]

/-- C8 counterexample: cancelling a run whose final result is stored (a run
that already completed — its done-callback stored the result and dropped
the task) leaves its outputs retrievable: `get_candidate_output` still
returns the stored output, refuting "every subsequent getCandidateOutput
call for that run and any of its candidates returns nothing". -/
theorem cancel_completed_run_output_counterexample :
    get_candidate_output
        (cancel_run ⟨[], [("r", ⟨[⟨"T", "D", "high", "out", none, some "c"⟩]⟩)],
          [], []⟩ "r").1 "r" "c" = some "out" ∧
    (cancel_run ⟨[], [("r", ⟨[⟨"T", "D", "high", "out", none, some "c"⟩]⟩)],
      [], []⟩ "r").2 = false := ⟨rfl, rfl⟩

/-- C8 witness: cancelling a tracked, not-yet-completed run reports true,
clears its buffers, and makes its candidate outputs unresolvable. -/
theorem cancel_run_clears_buffers_instance :
    ((cancel_run ⟨["r"], [], [("r", [("c", "x")])], [("r", "m")]⟩ "r").2 = true ↔
      "r" ∈ ["r"]) ∧
    dget (cancel_run ⟨["r"], [], [("r", [("c", "x")])], [("r", "m")]⟩
      "r").1.partial_outputs "r" = none ∧
    get_candidate_output (cancel_run ⟨["r"], [], [("r", [("c", "x")])],
      [("r", "m")]⟩ "r").1 "r" "c" = none := by
  have h := cancel_run_clears_buffers
    ⟨["r"], [], [("r", [("c", "x")])], [("r", "m")]⟩ "r"
  exact ⟨h.1, h.2.1, h.2.2.2.2 rfl "c"⟩

/-! ## Claim C10 -/

/-- C10: `handle_event` leaves the partial-output buffers and the
manual-output map unchanged for every event whose type is neither
`preview_chunk` nor `candidates`, and for every `preview_chunk` event whose
payload lacks a candidate id. -/
theorem handle_event_frame (st : CoordState) (e : PipelineEvent)
    (h : (e.type ≠ "preview_chunk" ∧ e.type ≠ "candidates") ∨
      (e.type = "preview_chunk" ∧ e.payload.candidate_id = none)) :
    (handle_event st e).partial_outputs = st.partial_outputs ∧
    (handle_event st e).manual_outputs = st.manual_outputs := by
  have hst : handle_event st e = st := by
    unfold handle_event
    rcases h with ⟨h1, h2⟩ | ⟨h1, h2⟩
    · rw [if_neg h1, if_neg h2]
    · rw [if_pos h1, h2]
      simp [pyTruthyStr]
  rw [hst]
  exact ⟨rfl, rfl⟩

/-- C10 witness: a `run_started` event leaves both buffers unchanged. -/
theorem handle_event_frame_instance :
    (handle_event ⟨["r"], [], [("r", [("c", "x")])], [("r", "m")]⟩
        ⟨"r", "run_started", ⟨none, none, false, none, []⟩⟩).partial_outputs =
      [("r", [("c", "x")])] ∧
    (handle_event ⟨["r"], [], [("r", [("c", "x")])], [("r", "m")]⟩
        ⟨"r", "run_started", ⟨none, none, false, none, []⟩⟩).manual_outputs =
      [("r", "m")] :=
  handle_event_frame _ _ (Or.inl ⟨by decide, by decide⟩)

/-! ## Claim C4 -/

/-- C4 counterexample: a per-delta callback that always raises. Streaming
succeeds and yields the full text `"hello"`, but the callback exception
aborts the streaming attempt; the fallback non-streaming call then
delivers the full text to the callback OUTSIDE any try block, so the
callback failure propagates into `generate_outputs`' catch: the returned
`IntentResult` has `output=""` and the callback-caused error — NOT the
generated output (third conjunct shows the same transport would have
produced output `"hello"` with no callback). -/
theorem callback_failure_aborts_generation_counterexample :
    (generate_outputs ⟨"T", "D", "high"⟩ ["hello"] none (.ok "hello")
        (some (fun _ => .error "callback failed"))).output = "" ∧
    (generate_outputs ⟨"T", "D", "high"⟩ ["hello"] none (.ok "hello")
        (some (fun _ => .error "callback failed"))).error =
      some "callback failed" ∧
    generate_outputs ⟨"T", "D", "high"⟩ ["hello"] none (.ok "hello") none =
      ⟨"T", "D", "high", "hello", none, none⟩ := ⟨rfl, rfl, rfl⟩

/-- C4 (amended): a callback failure during the STREAMING attempt is
swallowed: the generation transparently falls back to the non-streaming
call and the result is exactly the fallback result (the streaming-phase
error `e` never appears in it); in particular, if the callback accepts the
fallback's single synthetic delta the result carries the full generated
output and no error. But a callback failure on that fallback delivery is
NOT swallowed: it is caught by `generate_outputs` and recorded as the
candidate's error with `output=""`, losing the generated output. -/
theorem callback_failure_fallback (cand : IntentCandidate)
    (deltas : List String) (streamErr : Option String)
    (chat : Except String String) (f : String → Except String Unit)
    (e : String) (h : stream_try deltas streamErr f = .error e) :
    generate_outputs cand deltas streamErr chat (some f) =
      mkStage2IntentResult cand (fallback_chat chat f) ∧
    (∀ txt e2, chat = .ok txt → txt ≠ "" → f txt = .error e2 →
      (generate_outputs cand deltas streamErr chat (some f)).output = "" ∧
      (generate_outputs cand deltas streamErr chat (some f)).error = some e2) ∧
    (∀ txt, chat = .ok txt → txt ≠ "" → f txt = .ok () →
      generate_outputs cand deltas streamErr chat (some f) =
        mkStage2IntentResult cand (.ok txt)) := by
  have hmain : maybe_stream_chat deltas streamErr chat (some f) =
      fallback_chat chat f := by
    unfold maybe_stream_chat
    simp only [h]
  refine ⟨by unfold generate_outputs; rw [hmain], ?_, ?_⟩
  · intro txt e2 hc ht hf
    have hfb : fallback_chat chat f = .error e2 := by
      unfold fallback_chat
      rw [hc]
      simp [ht, hf]
    unfold generate_outputs
    rw [hmain, hfb]
    exact ⟨rfl, rfl⟩
  · intro txt hc ht hf
    have hfb : fallback_chat chat f = .ok txt := by
      unfold fallback_chat
      rw [hc]
      simp [ht, hf]
    unfold generate_outputs
    rw [hmain, hfb]

/-- C4 witness: a callback that fails only on the streamed delta `"hi"`:
the failure is swallowed, generation falls back and returns the full
non-streaming output `"world"` with no error. -/
theorem callback_failure_fallback_instance :
    generate_outputs ⟨"T", "D", "high"⟩ ["hi"] none (.ok "world")
        (some (fun s => if s = "hi" then .error "boom" else .ok ())) =
      mkStage2IntentResult ⟨"T", "D", "high"⟩
        (fallback_chat (.ok "world")
          (fun s => if s = "hi" then .error "boom" else .ok ())) ∧
    generate_outputs ⟨"T", "D", "high"⟩ ["hi"] none (.ok "world")
        (some (fun s => if s = "hi" then .error "boom" else .ok ())) =
      ⟨"T", "D", "high", "world", none, none⟩ := by
  have h := callback_failure_fallback ⟨"T", "D", "high"⟩ ["hi"] none
    (.ok "world") (fun s => if s = "hi" then .error "boom" else .ok ())
    "boom" (by rfl)
  exact ⟨h.1, h.2.2 "world" rfl (by decide) rfl⟩

/-! ## Claim C6 -/

theorem parseIntentItem_sound {j : Json} {c : IntentCandidate}
    (h : parseIntentItem j = some c) :
    c.title ≠ "" ∧
    (c.confidence = "low" ∨ c.confidence = "medium" ∨
      c.confidence = "high") := by
  cases j with
  | obj kvs =>
    unfold parseIntentItem at h
    simp only [] at h
    split at h
    · simp at h
    · rename_i ht
      injection h with h
      subst h
      refine ⟨ht, ?_⟩
      simp only
      split
      · rename_i hp
        exact hp
      · right; left; rfl
  | null => simp [parseIntentItem] at h
  | bool b => simp [parseIntentItem] at h
  | num n => simp [parseIntentItem] at h
  | str s => simp [parseIntentItem] at h
  | arr xs => simp [parseIntentItem] at h

/-- Scenario D raw stage-1 output (a fenced JSON array with an unknown
confidence value). -/
def scenarioD_raw : String :=
  "```json\n[\x7b\"title\":\"X\",\"description\":\"\",\"confidence\":\"weird\"\x7d]\n```"

def scenarioD_cleaned : String :=
  "[\x7b\"title\":\"X\",\"description\":\"\",\"confidence\":\"weird\"\x7d]"

/-- A concrete `json.loads` model that parses exactly the scenario-D text. -/
def scenarioD_jloads : String → Option Json := fun s =>
  if s = scenarioD_cleaned then
    some (.arr [.obj [("title", .str "X"), ("description", .str ""),
      ("confidence", .str "weird")]])
  else none

/-- C6: stage-1 parsing strips an optional fenced code block, parses the
remainder as JSON, accepts a single object as the one-element array of it,
keeps exactly the entries with a non-empty (stripped) title, and coerces
confidence to low/medium/high with medium as default; a JSON parse failure
yields the empty candidate list (`.ok []` — the run is not aborted, unlike
the `.error` TypeError path for non-iterable JSON). The last conjunct is
Scenario D: the fenced array with confidence `"weird"` parses to one
candidate with confidence `"medium"`. -/
theorem stage1_parsing_spec (jloads : String → Option Json) (raw : String) :
    (∀ cleaned, extract_json raw = some cleaned → jloads cleaned = none →
       parse_intents jloads raw = .ok []) ∧
    (∀ cs, parse_intents jloads raw = .ok cs → ∀ c ∈ cs,
       c.title ≠ "" ∧ (c.confidence = "low" ∨ c.confidence = "medium" ∨
         c.confidence = "high")) ∧
    (∀ kvs c, parseIntentItem (.obj kvs) = some c →
       (pyLower (pyStrip (pyStr (dictGetJ kvs "confidence"))) ≠ "low" ∧
        pyLower (pyStrip (pyStr (dictGetJ kvs "confidence"))) ≠ "medium" ∧
        pyLower (pyStrip (pyStr (dictGetJ kvs "confidence"))) ≠ "high") →
       c.confidence = "medium") ∧
    (∀ kvs, pyStrip (pyStr (dictGetJ kvs "title")) ≠ "" →
       (parseIntentItem (.obj kvs)).isSome) ∧
    (∀ cleaned kvs jl2, extract_json raw = some cleaned → cleaned ≠ "" →
       jloads cleaned = some (.obj kvs) →
       jl2 cleaned = some (.arr [.obj kvs]) →
       parse_intents jloads raw = parse_intents jl2 raw) ∧
    (extract_json scenarioD_raw = some scenarioD_cleaned ∧
     parse_intents scenarioD_jloads scenarioD_raw =
       .ok [⟨"X", "", "medium"⟩]) := by
  refine ⟨?_, ?_, ?_, ?_, ?_, by decide, by rfl⟩
  · intro cleaned hext hj
    unfold parse_intents
    rw [hext]
    by_cases hc : cleaned = "" <;> simp [hc, hj]
  · intro cs hcs c hc
    unfold parse_intents at hcs
    split at hcs
    · injection hcs with h; subst h; simp at hc
    · split at hcs
      · injection hcs with h; subst h; simp at hc
      · split at hcs
        · injection hcs with h; subst h; simp at hc
        · split at hcs
          · injection hcs with h
            subst h
            obtain ⟨j, _, hj⟩ := List.mem_filterMap.mp hc
            exact parseIntentItem_sound hj
          · injection hcs with h; subst h; simp at hc
          · exact absurd hcs (by simp)
  · intro kvs c h hconf
    unfold parseIntentItem at h
    simp only [] at h
    split at h
    · simp at h
    · injection h with h
      subst h
      simp only
      rw [if_neg]
      rintro (hl | hm | hh)
      · exact hconf.1 hl
      · exact hconf.2.1 hm
      · exact hconf.2.2 hh
  · intro kvs ht
    unfold parseIntentItem
    simp [ht]
  · intro cleaned kvs jl2 hext hne hj hj2
    unfold parse_intents
    rw [hext]
    simp [hne, hj, hj2]

/-- C6 witness: a failing JSON parse yields the empty list, and the
Scenario D input end to end. -/
theorem stage1_parsing_spec_instance :
    parse_intents (fun _ => none) "hello" = .ok [] ∧
    parse_intents scenarioD_jloads scenarioD_raw =
      .ok [⟨"X", "", "medium"⟩] :=
  ⟨(stage1_parsing_spec (fun _ => none) "hello").1 "hello" (by decide) rfl,
   (stage1_parsing_spec scenarioD_jloads scenarioD_raw).2.2.2.2.2.2⟩

/-! ## Claim C7 -/

/-- C7: when stage 1 parses to K candidates (K at most the configured
max-candidates), the final result list has length K+1, and the first K
results are the stage-2 results in original stage-1 candidate order (each
index `i` carries candidate `i`'s payload, id and stage-2 outcome). The
second conjunct is the completion-order independence of the collection
step: for ANY permutation of the gathered `(candidate id, result)` pairs —
i.e. regardless of the order in which the concurrent stage-2 calls
complete — the dict re-indexing returns the results in original candidate
order. `hinj` models uuid4 freshness of the K drawn candidate ids. -/
theorem stage2_results_order_and_length
    (cfg : RunConfig) (inp : RunInputs) (c : ClipboardData) (raw : String)
    (parsed : List IntentCandidate)
    (hread : ClipboardReader.read inp.clipText inp.clipImage cfg.text_only = some c)
    (hshort : (cfg.text_only && !c.has_text) = false)
    (hs1 : inp.stage1Chat = Except.ok raw)
    (hparse : parse_intents inp.jloads raw = Except.ok parsed)
    (hK : parsed.length ≤ cfg.max_candidates)
    (hinj : ∀ a b, a < parsed.length → b < parsed.length →
      inp.genId a = inp.genId b → a = b) :
    (∃ out, pipelineRun cfg inp = .ok out ∧
       out.results.length = parsed.length + 1 ∧
       ∀ i, i < parsed.length →
         out.results.get? i = (parsed.get? i).map (fun cand =>
           setCid (inp.genId i) (mkStage2IntentResult cand (inp.stage2Chat i)))) ∧
    (∀ entries pairs gathered,
       pairs.map Prod.fst = entries.map CandidateEntry.candidate_id →
       (entries.map CandidateEntry.candidate_id).Nodup →
       List.Perm gathered pairs →
       run_stage2_generation entries gathered = pairs.map Prod.snd) := by
  have htake : parsed.take cfg.max_candidates = parsed :=
    List.take_of_length_le hK
  have hrun := pipelineRun_normal cfg inp c raw parsed hread hshort hs1 hparse
  rw [htake] at hrun
  have hlist := run_stage2_taskorder inp parsed hinj
  constructor
  · refine ⟨_, hrun, ?_, ?_⟩
    · simp only [hlist]
      rw [List.length_append, List.length_map, taskOutputsAux_length]
      rfl
    · intro i hi
      simp only [hlist]
      rw [List.get?_append]
      · rw [List.get?_map, taskOutputsAux_get]
        simp only [Nat.zero_add, Option.map_map]
        congr 1
      · rw [List.length_map, taskOutputsAux_length]
        exact hi
  · intro entries pairs gathered hkeys hnd hperm
    exact run_stage2_of_perm entries pairs gathered hkeys
      (by rw [hkeys]; exact hnd) hperm

def inpW7 : RunInputs :=
  ⟨some "hi", none, .ok "x",
    fun _ => some (.arr [.obj [("title", .str "A")]]),
    fun _ => idW, fun _ => .ok "outA"⟩

/-- C7 witness: one parsed candidate gives a result list of length 2 whose
first entry is candidate 0's stage-2 result. -/
theorem stage2_results_order_and_length_instance :
    ∃ out, pipelineRun ⟨false, 4⟩ inpW7 = .ok out ∧
      out.results.length = [(⟨"A", "", "medium"⟩ : IntentCandidate)].length + 1 ∧
      ∀ i, i < [(⟨"A", "", "medium"⟩ : IntentCandidate)].length →
        out.results.get? i =
          ([(⟨"A", "", "medium"⟩ : IntentCandidate)].get? i).map (fun cand =>
            setCid (inpW7.genId i) (mkStage2IntentResult cand (inpW7.stage2Chat i))) :=
  (stage2_results_order_and_length ⟨false, 4⟩ inpW7
    ⟨some "hi", none, "image/png", false⟩ "x" [⟨"A", "", "medium"⟩]
    rfl rfl rfl rfl (by decide)
    (by
      intro a b ha hb _
      simp only [List.length_singleton] at ha hb
      omega)).1

/-! ## Claim C5 -/

/-- C5: a stage-2 transport failure for candidate `i` is isolated to that
candidate: the run still returns a result list (and hence emits
`run_completed`), candidate `i`'s `IntentResult` has `output=""` and the
non-empty transport message as its error, and replacing candidate `i`'s
transport outcome (the only thing the failure changes) leaves every other
candidate's result — and the list length — unchanged. `hinj` models uuid4
freshness; `hne` models that `str(exc)` of a transport error is non-empty. -/
theorem stage2_failure_isolated
    (cfg : RunConfig) (inp : RunInputs) (c : ClipboardData) (raw : String)
    (parsed : List IntentCandidate)
    (hread : ClipboardReader.read inp.clipText inp.clipImage cfg.text_only = some c)
    (hshort : (cfg.text_only && !c.has_text) = false)
    (hs1 : inp.stage1Chat = Except.ok raw)
    (hparse : parse_intents inp.jloads raw = Except.ok parsed)
    (hinj : ∀ a b, a < (parsed.take cfg.max_candidates).length →
      b < (parsed.take cfg.max_candidates).length →
      inp.genId a = inp.genId b → a = b)
    (i : Nat) (hi : i < (parsed.take cfg.max_candidates).length)
    (e : String) (hfail : inp.stage2Chat i = .error e) (hne : e ≠ "") :
    ∃ out, pipelineRun cfg inp = .ok out ∧
      (∃ r, out.results.get? i = some r ∧ r.output = "" ∧
        r.error = some e ∧ e ≠ "") ∧
      (∀ g : Nat → Except String String,
        (∀ j, j ≠ i → g j = inp.stage2Chat j) →
        ∃ out2, pipelineRun cfg { inp with stage2Chat := g } = .ok out2 ∧
          out2.results.length = out.results.length ∧
          ∀ j, j ≠ i → out2.results.get? j = out.results.get? j) := by
  have hrun := pipelineRun_normal cfg inp c raw parsed hread hshort hs1 hparse
  have hlist := run_stage2_taskorder inp (parsed.take cfg.max_candidates) hinj
  refine ⟨_, hrun, ?_, ?_⟩
  · refine ⟨setCid (inp.genId i) (mkStage2IntentResult
      ((parsed.take cfg.max_candidates).get ⟨i, hi⟩) (.error e)), ?_, rfl, rfl, hne⟩
    simp only [hlist]
    rw [List.get?_append]
    · rw [List.get?_map, taskOutputsAux_get]
      simp only [Nat.zero_add]
      rw [List.get?_eq_get hi, hfail]
      rfl
    · rw [List.length_map, taskOutputsAux_length]
      exact hi
  · intro g hg
    have hrun2 := pipelineRun_normal cfg { inp with stage2Chat := g } c raw
      parsed hread hshort hs1 hparse
    have hlist2 := run_stage2_taskorder { inp with stage2Chat := g }
      (parsed.take cfg.max_candidates) hinj
    refine ⟨_, hrun2, ?_, ?_⟩
    · simp only [hlist, hlist2]
      rw [List.length_append, List.length_map, taskOutputsAux_length,
        List.length_append, List.length_map, taskOutputsAux_length]
    · intro j hj
      simp only [hlist, hlist2]
      by_cases hlt : j < (parsed.take cfg.max_candidates).length
      · rw [List.get?_append (by rw [List.length_map, taskOutputsAux_length]; exact hlt),
          List.get?_append (by rw [List.length_map, taskOutputsAux_length]; exact hlt)]
        rw [List.get?_map, List.get?_map, taskOutputsAux_get, taskOutputsAux_get]
        simp only [Nat.zero_add]
        rw [hg j hj]
      · rw [List.get?_append_right (by rw [List.length_map, taskOutputsAux_length]; omega),
          List.get?_append_right (by rw [List.length_map, taskOutputsAux_length]; omega)]
        rw [List.length_map, List.length_map, taskOutputsAux_length, taskOutputsAux_length]

/-- A second 32-hex-digit candidate id for multi-candidate witnesses. -/
def idW2 : String := "ffffffffffffffffffffffffffffffff"

def inpW5 : RunInputs :=
  ⟨some "hi", none, .ok "x",
    fun _ => some (.arr [.obj [("title", .str "A")], .obj [("title", .str "B")]]),
    fun n => if n = 0 then idW else idW2,
    fun n => if n = 0 then .error "boom" else .ok "outB"⟩

/-- C5 witness: two candidates; candidate 0's transport fails with "boom",
the run completes, candidate 0's result is `output=""`/`error="boom"`, and
candidate 1's result is insensitive to candidate 0's outcome. -/
theorem stage2_failure_isolated_instance :
    ∃ out, pipelineRun ⟨false, 4⟩ inpW5 = .ok out ∧
      (∃ r, out.results.get? 0 = some r ∧ r.output = "" ∧
        r.error = some "boom" ∧ "boom" ≠ "") ∧
      (∀ g : Nat → Except String String,
        (∀ j, j ≠ 0 → g j = inpW5.stage2Chat j) →
        ∃ out2, pipelineRun ⟨false, 4⟩ { inpW5 with stage2Chat := g } = .ok out2 ∧
          out2.results.length = out.results.length ∧
          ∀ j, j ≠ 0 → out2.results.get? j = out.results.get? j) :=
  stage2_failure_isolated ⟨false, 4⟩ inpW5
    ⟨some "hi", none, "image/png", false⟩ "x"
    [⟨"A", "", "medium"⟩, ⟨"B", "", "medium"⟩]
    rfl rfl rfl rfl
    (by
      intro a b ha hb h
      have ha2 : a < 2 := Nat.lt_of_lt_of_le ha (by decide)
      have hb2 : b < 2 := Nat.lt_of_lt_of_le hb (by decide)
      interval_cases a <;> interval_cases b <;>
        first
          | rfl
          | exact absurd h (by decide))
    0 (by decide) "boom" rfl (by decide)

/-! ## Claim C9 -/

/-- C9: within every run that returns a result list, candidate ids are
pairwise unique across the list, and no result other than the final manual
one carries the reserved manual id (so the manual id never equals a
generated id). `hlen` and `hinj` model `uuid.uuid4().hex`: each of the K
( = result count minus the manual entry) drawn ids has 32 hex digits and
the draws are collision-free. -/
theorem candidate_ids_unique (cfg : RunConfig) (inp : RunInputs)
    (out : PipelineResultM) (hok : pipelineRun cfg inp = .ok out)
    (hlen : ∀ n, n < out.results.length - 1 → (inp.genId n).length = 32)
    (hinj : ∀ a b, a < out.results.length - 1 → b < out.results.length - 1 →
      inp.genId a = inp.genId b → a = b) :
    (out.results.map IntentResult.candidate_id).Nodup ∧
    ∀ r ∈ out.results.dropLast, r.candidate_id ≠ some MANUAL_CANDIDATE_ID := by
  rcases pipelineRun_ok_cases cfg inp out hok with
      ⟨c, _, hout⟩ | ⟨c, raw, parsed, _, _, _, _, hout⟩
  · subst hout
    exact ⟨by simp, by simp⟩
  · subst hout
    simp only at hlen hinj
    have hKlen : (run_stage2_generation
        (entriesAux inp.genId 0 (parsed.take cfg.max_candidates))
        (taskOutputsAux inp 0 (parsed.take cfg.max_candidates)) ++
        [build_manual_result c]).length - 1 =
        (parsed.take cfg.max_candidates).length := by
      rw [List.length_append, run_stage2_length]
      simp
    rw [hKlen] at hlen hinj
    have hlist := run_stage2_taskorder inp (parsed.take cfg.max_candidates) hinj
    have hcids : (List.map Prod.snd
        (taskOutputsAux inp 0 (parsed.take cfg.max_candidates))).map
          IntentResult.candidate_id =
        (idsFrom inp.genId 0 (parsed.take cfg.max_candidates).length).map some := by
      rw [← taskOutputsAux_snd_cid, List.map_map]
      rfl
    have hnotmem : some MANUAL_CANDIDATE_ID ∉
        (idsFrom inp.genId 0 (parsed.take cfg.max_candidates).length).map some := by
      intro hmem
      obtain ⟨id0, hid, hEq⟩ := List.mem_map.mp hmem
      obtain ⟨j, _, hj2, hj3⟩ := mem_idsFrom.mp hid
      injection hEq with hEq
      rw [hEq] at hj3
      have h32 := hlen j (by omega)
      rw [← hj3] at h32
      unfold MANUAL_CANDIDATE_ID at h32
      exact absurd h32 (by decide)
    constructor
    · simp only [List.map_append, hlist, hcids]
      rw [List.nodup_append]
      refine ⟨?_, by simp, ?_⟩
      · exact (idsFrom_nodup (fun a b ha1 ha2 hb1 hb2 hEq =>
          hinj a b (by omega) (by omega) hEq)).map (Option.some_injective _)
      · intro x hx hx2
        simp only [List.map_cons, List.map_nil, List.mem_singleton] at hx2
        rw [hx2] at hx
        exact hnotmem hx
    · intro r hr
      simp only [List.dropLast_concat, hlist] at hr
      obtain ⟨kv, hkv, hkv2⟩ := List.mem_map.mp hr
      obtain ⟨j, _, hj2, _, hj4⟩ := mem_taskOutputsAux hkv
      rw [← hkv2, hj4]
      intro hEq
      injection hEq with hEq
      have h32 := hlen j (by omega)
      rw [hEq] at h32
      unfold MANUAL_CANDIDATE_ID at h32
      exact absurd h32 (by decide)

def inpW9 : RunInputs :=
  ⟨some "hi", none, .ok "x",
    fun _ => some (.arr [.obj [("title", .str "A")], .obj [("title", .str "B")]]),
    fun n => if n = 0 then idW else idW2,
    fun n => if n = 0 then .ok "outA" else .ok "outB"⟩

/-- C9 witness: a run with two generated candidates and the manual result;
ids are pairwise distinct and the manual id appears only last. -/
theorem candidate_ids_unique_instance :
    ((⟨[⟨"A", "", "medium", "outA", none, some idW⟩,
        ⟨"B", "", "medium", "outB", none, some idW2⟩,
        ⟨"Paste as-is",
          "Keep the original clipboard content without changes.",
          "manual", "hi", none, some "manual"⟩]⟩ :
        PipelineResultM).results.map IntentResult.candidate_id).Nodup ∧
    ∀ r ∈ (⟨[⟨"A", "", "medium", "outA", none, some idW⟩,
        ⟨"B", "", "medium", "outB", none, some idW2⟩,
        ⟨"Paste as-is",
          "Keep the original clipboard content without changes.",
          "manual", "hi", none, some "manual"⟩]⟩ :
        PipelineResultM).results.dropLast,
      r.candidate_id ≠ some MANUAL_CANDIDATE_ID :=
  candidate_ids_unique ⟨false, 4⟩ inpW9 _ (by rfl)
    (by
      intro n hn
      have h2 : n < 2 := Nat.lt_of_lt_of_le hn (by decide)
      interval_cases n <;> rfl)
    (by
      intro a b ha hb h
      have ha2 : a < 2 := Nat.lt_of_lt_of_le ha (by decide)
      have hb2 : b < 2 := Nat.lt_of_lt_of_le hb (by decide)
      interval_cases a <;> interval_cases b <;>
        first
          | rfl
          | exact absurd h (by decide))

end MagicPaste
